import Mathlib

/-!
A verification development for the bulk image generation pipeline
(`gen.py`).  The pipeline's pure logic and its effectful control flow are
shallowly embedded: network responses and filesystem outcomes are supplied
by explicit oracles, and every observable action (log lines, directory
creation, sleeps, remote requests, file writes) is recorded as an event in
an explicit trace, in the order the source performs it.
-/

namespace BulkGen

/-! ## Words and whitespace splitting

`segment_script` begins with `script_text.strip().split()`: Python's
`str.split()` with no separator splits on runs of whitespace and discards
empty pieces, so a leading `strip()` does not change the result.  Text is
modelled as `List Char` and each word is the `List Char` of its characters.
-/

/-- A whitespace-delimited word of the script. -/
abbrev Word := List Char

/-- The characters Python's `str.split()` treats as separators
(the ASCII whitespace characters). -/
def isWS (c : Char) : Bool :=
  c = ' ' || c = '\t' || c = '\n' || c = '\r' || c = '\x0b' || c = '\x0c'

/-- Helper for `splitWords`: scans the text accumulating the current word
(in reverse) and emitting it when a separator or the end is reached. -/
def splitWordsAux : List Char → List Char → List Word
  | [], acc => if acc.isEmpty then [] else [acc.reverse]
  | c :: cs, acc =>
    if isWS c then
      if acc.isEmpty then splitWordsAux cs []
      else acc.reverse :: splitWordsAux cs []
    else splitWordsAux cs (c :: acc)

/-- Python `script_text.strip().split()`: the whitespace-delimited words of the
text, empty pieces discarded. -/
def splitWords (s : List Char) : List Word := splitWordsAux s []

/-- A text is blank when every character is whitespace (this includes the
empty text). -/
def isBlank (s : List Char) : Bool := s.all isWS

/-! ## Ceiling division

`segment_script` computes `words_per_segment = math.ceil(total_words /
num_segments)`.  The float division plus `math.ceil` is modelled as exact
natural ceiling division. -/

/-- Ceiling division `math.ceil(a / b)` for natural `a`, positive natural `b`. -/
def ceilDiv (a b : Nat) : Nat := (a + b - 1) / b

/-! ## The segmenter

```
words = script_text.strip().split()
if not words: return []
words_per_segment = math.ceil(total_words / num_segments)
for i in range(num_segments):
    start_index = i * words_per_segment
    end_index = min((i + 1) * words_per_segment, total_words)
    segment_words = words[start_index:end_index]
    if segment_words: segments.append(" ".join(segment_words))
```

The slice `words[i*p : min((i+1)*p, total)]` is `(words.drop (i*p)).take p`
(`take` clamps at the end of the list exactly as the `min` does).
`segmentWindows` is the list of `segment_words` values that get appended;
`segment_script` joins each with single spaces as the source does. -/

/-- The word windows the segmenter keeps: one per loop index `i` of
`range(num_segments)`, dropping those that would be empty. -/
def segmentWindows (words : List Word) (num_segments : Nat) : List (List Word) :=
  if words.isEmpty then []
  else
    let p := ceilDiv words.length num_segments
    (List.range num_segments).filterMap fun i =>
      let segment_words := (words.drop (i * p)).take p
      if segment_words.isEmpty then none else some segment_words

/-- The join `" ".join(segment_words)`. -/
def joinWords (ws : List Word) : List Char := List.intercalate [' '] ws

/-- The function `segment_script` without its log line: the kept windows, each joined
back into text with single spaces. -/
def segment_script (script_text : List Char) (num_segments : Nat) : List (List Char) :=
  (segmentWindows (splitWords script_text) num_segments).map joinWords

/-! ### Chunking view of the segmenter -/

/-- Repeatedly take `p`-word chunks from the front of `l`, at most `fuel`
times, stopping at the empty list. -/
def chunksN (fuel p : Nat) (l : List Word) : List (List Word) :=
  match fuel with
  | 0 => []
  | f + 1 => if l.isEmpty then [] else l.take p :: chunksN f p (l.drop p)

/-! ## Observable events

Every observable action of the pipeline is recorded as an `Event`, in the
order the source performs it: a log line put on the GUI queue, the
`os.makedirs` call, a `time.sleep`, an HTTP request, or a file write.
Log lines are represented by one constructor per `log_message` call site;
constructors carry the data the message interpolates when a claim refers
to it. -/

/-- The three remote HTTP API requests the pipeline issues (the final
asset download is a separate event carrying its destination name). -/
inductive CallKind where
  | deepseek
  | freepikSubmit
  | freepikPoll
deriving DecidableEq

/-- One observable action of a pipeline run. -/
inductive Event where
  | logStart
  | mkdirOutput
  | logSavedAs
  | logSplit (n : Nat)
  | logEmptyScript
  | logProcessing (i total : Nat)
  | logGeneratingPrompt
  | logPromptError
  | logGeneratedPrompt
  | logSkipPrompt
  | logStartingGeneration
  | logTaskStarted
  | logSubmitError
  | logSkipTask
  | logPollingStart
  | sleepPoll (interval : Nat)
  | remoteCall (k : CallKind)
  | logPollSuccess
  | logPollStatus (status : Option String)
  | logPollError
  | logPollExhausted
  | logSkipPoll
  | logUrlFound
  | downloadCall (name : String)
  | writeFile (name : String)
  | logSaveSuccess (name : String)
  | logDownloadError
  | logComplete
  | logSummary (count : Nat)
  | criticalError
  | pipelineComplete
deriving DecidableEq

/-- Is the event a remote HTTP request (API call or asset download)? -/
def isRemoteCall : Event → Bool
  | .remoteCall _ => true
  | .downloadCall _ => true
  | _ => false

/-- Is the event a poll status request (`requests.get` on the task URL)? -/
def isPollCall : Event → Bool
  | .remoteCall .freepikPoll => true
  | _ => false

/-- Is the event one step of a poll attempt: the sleep before the check or
the status request itself? -/
def isPollStep : Event → Bool
  | .sleepPoll _ => true
  | .remoteCall .freepikPoll => true
  | _ => false

/-- Is the event the per-segment `--- Processing Segment i of n ---` log? -/
def isProcessing : Event → Bool
  | .logProcessing _ _ => true
  | _ => false

/-- The destination file name of an asset-download request event. -/
def downloadNameOf : Event → Option String
  | .downloadCall name => some name
  | _ => none

/-- The destinations of the asset-download requests in a trace, in
order. -/
def fetchNames (evts : List Event) : List String :=
  evts.filterMap downloadNameOf

/-! ## The Job Poller

```
POLL_INTERVAL = 5
MAX_ATTEMPTS = 20
for attempt in range(MAX_ATTEMPTS):
    try:
        time.sleep(POLL_INTERVAL)
        response = requests.get(url, headers=headers, timeout=20)
        response.raise_for_status()
        data = response.json()
        data_obj = data.get('data', {})
        status = data_obj.get('status')
        generated_images = data_obj.get('generated')
        if generated_images and isinstance(generated_images, list) and len(generated_images) > 0:
            image_url = next((item for item in generated_images
                              if isinstance(item, str) and item.startswith('http')), None)
            if image_url:
                return image_url
        log(f"Status (Attempt ...): {status}. Waiting...")
    except requests.RequestException as e:
        log(f"ERROR (Freepik Poll): {e}. Retrying...")
log("ERROR: Max polling attempts reached...")
return None
```

Each attempt's network outcome is supplied by an oracle indexed by the
attempt number.  An element of the `generated` list is either a JSON
string or some other JSON value; a missing, null, or non-list `generated`
field is modelled as the empty list, since the code skips the url search
in exactly those cases. -/

/-- An element of the `generated` list in a poll response: a JSON string
(its characters) or some other JSON value. -/
inductive JValue where
  | str (s : List Char)
  | nonstr
deriving DecidableEq

/-- The outcome of one poll attempt's network exchange: a
`requests.RequestException` (transport or HTTP failure), or a parsed
response carrying the `status` field and the `generated` list. -/
inductive PollOutcome where
  | err
  | ok (status : Option String) (generated : List JValue)

/-- The URL scheme prefix `'http'` tested by `item.startswith('http')`. -/
def httpPrefix : List Char := ['h', 't', 't', 'p']

/-- The test `isinstance(item, str) and item.startswith('http')`, keeping the
string. -/
def qualifyingUrl : JValue → Option (List Char)
  | .str s => if httpPrefix.isPrefixOf s then some s else none
  | .nonstr => none

/-- Is a generated-list element a string beginning with the URL scheme
prefix? -/
def isQualifying : JValue → Bool
  | .str s => httpPrefix.isPrefixOf s
  | .nonstr => false

/-- The selection `next((item for item in generated_images if isinstance(item, str) and
item.startswith('http')), None)`, guarded by the truthiness and list
checks on `generated_images`. -/
def firstUrl (generated : List JValue) : Option (List Char) :=
  if generated.isEmpty then none
  else generated.findSome? qualifyingUrl

/-- Does a poll outcome contain a qualifying asset string (a string in
the generated list beginning with the URL scheme prefix)? -/
def hasQualifying : PollOutcome → Bool
  | .err => false
  | .ok _ generated => generated.any isQualifying

/-- The first qualifying asset string of a poll outcome, if any. -/
def firstUrlOfOutcome : PollOutcome → Option (List Char)
  | .err => none
  | .ok _ generated => firstUrl generated

/-- The call `time.sleep(POLL_INTERVAL)` before every status check. -/
def POLL_INTERVAL : Nat := 5

/-- The fixed poll attempt budget. -/
def MAX_ATTEMPTS : Nat := 20

/-- One iteration of the poll loop body: the sleep, the status request,
and either the success return value or the logged continuation. -/
def pollAttempt (o : PollOutcome) : List Event × Option (List Char) :=
  match o with
  | .err =>
    ([.sleepPoll POLL_INTERVAL, .remoteCall .freepikPoll, .logPollError], none)
  | .ok status generated =>
    match firstUrl generated with
    | some url =>
      ([.sleepPoll POLL_INTERVAL, .remoteCall .freepikPoll, .logPollSuccess], some url)
    | none =>
      ([.sleepPoll POLL_INTERVAL, .remoteCall .freepikPoll, .logPollStatus status], none)

/-- The poll loop from attempt number `attempt` with `remaining` budget:
returns on the first qualifying url, logs the exhaustion error when the
budget runs out. -/
def pollLoop (responses : Nat → PollOutcome) :
    Nat → Nat → List Event × Option (List Char)
  | _, 0 => ([.logPollExhausted], none)
  | attempt, r + 1 =>
    let step := pollAttempt (responses attempt)
    match step.2 with
    | some url => (step.1, some url)
    | none =>
      let rest := pollLoop responses (attempt + 1) r
      (step.1 ++ rest.1, rest.2)

/-- The poller `poll_for_image_url` with the network supplied by `responses`:
the initial "Polling for image status" log line followed by the loop. -/
def poll_for_image_url (responses : Nat → PollOutcome) :
    List Event × Option (List Char) :=
  let run := pollLoop responses 0 MAX_ATTEMPTS
  (.logPollingStart :: run.1, run.2)

/-- Number of poll status requests in a trace. -/
def pollCalls (evts : List Event) : Nat := evts.countP isPollCall

/-- A concrete poll oracle: two in-progress responses, then a response
whose generated list holds a non-string, a non-url string, and an asset
url. -/
def pollWitnessResponses : Nat → PollOutcome
  | 2 => .ok (some "DONE")
      [JValue.nonstr, JValue.str "pending".toList, JValue.str "http://img/1".toList]
  | _ => .ok (some "IN_PROGRESS") []

/-! ## The remaining stages

Each remote stage's network outcome is an oracle value; the stage
functions reproduce the source's logging, parsing, truthiness checks and
return values.  Python's `if not x:` on an optional string is false for
`None` and for the empty string. -/

/-- Python truthiness of an optional string: `None` and `''` are falsy. -/
def truthy : Option (List Char) → Bool
  | none => false
  | some s => !s.isEmpty

/-- Python `str.strip()`: drop whitespace from both ends. -/
def pyStrip (s : List Char) : List Char :=
  ((s.dropWhile isWS).reverse.dropWhile isWS).reverse

/-- Network outcome of the DeepSeek chat completion: a
`requests.RequestException` or an unparseable body (`KeyError` or
`IndexError`), versus a successfully extracted message content. -/
inductive PromptResult where
  | fail
  | ok (content : List Char)

/-- The stage `generate_prompt_from_chunk`: one POST, returning the stripped
completion text, or `None` after logging the error. -/
def generate_prompt_from_chunk (r : PromptResult) :
    List Event × Option (List Char) :=
  match r with
  | .fail =>
    ([.logGeneratingPrompt, .remoteCall .deepseek, .logPromptError], none)
  | .ok content =>
    ([.logGeneratingPrompt, .remoteCall .deepseek], some (pyStrip content))

/-- Network outcome of the Freepik job submission: a
`requests.RequestException`, or a parsed response whose `data.task_id`
field may be absent (or empty). -/
inductive SubmitResult where
  | fail
  | ok (task_id : Option (List Char))

/-- The stage `start_image_generation`: one POST; returns the task id when the
response holds a truthy one, otherwise logs and returns `None` (both
Freepik-submit error call sites are modelled by `logSubmitError`). -/
def start_image_generation (r : SubmitResult) :
    List Event × Option (List Char) :=
  match r with
  | .fail =>
    ([.logStartingGeneration, .remoteCall .freepikSubmit, .logSubmitError], none)
  | .ok task_id =>
    if truthy task_id then
      ([.logStartingGeneration, .remoteCall .freepikSubmit, .logTaskStarted], task_id)
    else
      ([.logStartingGeneration, .remoteCall .freepikSubmit, .logSubmitError], none)

/-- Outcome of the final asset download: a `requests.RequestException`
(transport or HTTP failure), or a completed download whose subsequent
`open`/`write` may raise an `OSError`. -/
inductive FetchOutcome where
  | httpErr
  | ok (writeRaises : Bool)
deriving DecidableEq

/-- An exception the code does not catch in the stage functions. -/
inductive OSErr where
  | osError
deriving DecidableEq

/-- The stage `download_and_save_image`: one GET to the asset url, then the file
write.  Only `requests.RequestException` is caught (logged, swallowed);
an `OSError` from `open`/`write` propagates as `Except.error`.  The
function body has no `return` statement: its Python return value is
`None` on every non-raising path, here `Except.ok ()`. -/
def download_and_save_image (o : FetchOutcome) (file_path : String) :
    List Event × Except OSErr Unit :=
  match o with
  | .httpErr => ([.downloadCall file_path, .logDownloadError], .ok ())
  | .ok writeRaises =>
    if writeRaises then
      ([.downloadCall file_path], .error .osError)
    else
      ([.downloadCall file_path, .writeFile file_path, .logSaveSuccess file_path],
        .ok ())

/-! ## The orchestrator -/

/-- The per-segment remote outcomes of one run, indexed by the
zero-based segment number. -/
structure SegmentOracle where
  prompt : PromptResult
  submit : SubmitResult
  poll : Nat → PollOutcome
  fetch : FetchOutcome

/-- The configuration dict `main_pipeline` unpacks.  The credential,
style, folder and aspect-ratio strings are opaque to the control flow. -/
structure Config where
  freepik_key : String
  deepseek_key : String
  full_script : List Char
  num_images : Nat
  style_guide : String
  output_folder : String
  aspect_ratio : String

/-- The `for i, segment in enumerate(script_segments)` loop of
`main_pipeline`: `i` is the zero-based segment index, `counter` the
current value of `image_counter`.  A `continue` skips to the next
segment; an uncaught exception from the download stage aborts the whole
loop. -/
def runSegments (o : Nat → SegmentOracle) (total : Nat) :
    List (List Char) → Nat → Nat → List Event × Except OSErr Nat
  | [], _, counter => ([], .ok counter)
  | _seg :: rest, i, counter =>
    let ev0 := [Event.logProcessing (i + 1) total]
    let stepP := generate_prompt_from_chunk (o i).prompt
    if !truthy stepP.2 then
      let rest' := runSegments o total rest (i + 1) counter
      (ev0 ++ stepP.1 ++ [.logSkipPrompt] ++ rest'.1, rest'.2)
    else
      let stepS := start_image_generation (o i).submit
      if !truthy stepS.2 then
        let rest' := runSegments o total rest (i + 1) counter
        (ev0 ++ stepP.1 ++ [.logGeneratedPrompt] ++ stepS.1 ++ [.logSkipTask] ++
          rest'.1, rest'.2)
      else
        let stepPo := poll_for_image_url (o i).poll
        if !truthy stepPo.2 then
          let rest' := runSegments o total rest (i + 1) counter
          (ev0 ++ stepP.1 ++ [.logGeneratedPrompt] ++ stepS.1 ++ stepPo.1 ++
            [.logSkipPoll] ++ rest'.1, rest'.2)
        else
          let file_name := toString counter ++ ".png"
          let stepD := download_and_save_image (o i).fetch file_name
          match stepD.2 with
          | .error e =>
            (ev0 ++ stepP.1 ++ [.logGeneratedPrompt] ++ stepS.1 ++ stepPo.1 ++
              [.logUrlFound] ++ stepD.1, .error e)
          | .ok _ =>
            let rest' := runSegments o total rest (i + 1) (counter + 1)
            (ev0 ++ stepP.1 ++ [.logGeneratedPrompt] ++ stepS.1 ++ stepPo.1 ++
              [.logUrlFound] ++ stepD.1 ++ rest'.1, rest'.2)

/-- The orchestrator `main_pipeline`: start log, `os.makedirs(output_folder,
exist_ok=True)`, the saved-as log, segmentation (which logs the split
only for a non-empty word list), the empty-script abort, the segment
loop, and the final summary reporting `image_counter - 1`.  The
`os.path.join` of the output folder onto each file name is elided: file
names are the claim-relevant part. -/
def main_pipeline (cfg : Config) (o : Nat → SegmentOracle) :
    List Event × Except OSErr Unit :=
  let pre := [Event.logStart, Event.mkdirOutput, Event.logSavedAs]
  let segs := segment_script cfg.full_script cfg.num_images
  if segs.isEmpty then
    (pre ++ [.logEmptyScript], .ok ())
  else
    let run := runSegments o segs.length segs 0 1
    match run.2 with
    | .error e => (pre ++ [.logSplit segs.length] ++ run.1, .error e)
    | .ok counter =>
      (pre ++ [.logSplit segs.length] ++ run.1 ++
        [.logComplete, .logSummary (counter - 1)], .ok ())

/-- The wrapper `run_pipeline_thread`: the top-level wrapper; `except Exception`
reports a critical error, `finally` always enqueues the completion
signal. -/
def run_pipeline_thread (cfg : Config) (o : Nat → SegmentOracle) :
    List Event :=
  let run := main_pipeline cfg o
  match run.2 with
  | .ok _ => run.1 ++ [.pipelineComplete]
  | .error _ => run.1 ++ [.criticalError, .pipelineComplete]

/-- Does this segment's oracle pass the three pre-download truthiness
checks, so that the run reaches the Asset Fetcher for it? -/
def reachesFetch (s : SegmentOracle) : Bool :=
  truthy (generate_prompt_from_chunk s.prompt).2 &&
  truthy (start_image_generation s.submit).2 &&
  truthy (poll_for_image_url s.poll).2

/-- Does this segment's oracle make the download stage raise an
uncaught `OSError`? -/
def segmentRaises (s : SegmentOracle) : Prop :=
  reachesFetch s = true ∧ s.fetch = FetchOutcome.ok true

instance (s : SegmentOracle) : Decidable (segmentRaises s) := by
  unfold segmentRaises
  infer_instance

/-- Events that the Prompt Synthesizer, Job Submitter and Job Poller can
emit. -/
def preFetchEvent : Event → Bool
  | .logGeneratingPrompt => true
  | .logPromptError => true
  | .logStartingGeneration => true
  | .logTaskStarted => true
  | .logSubmitError => true
  | .logPollingStart => true
  | .sleepPoll _ => true
  | .remoteCall _ => true
  | .logPollSuccess => true
  | .logPollStatus _ => true
  | .logPollError => true
  | .logPollExhausted => true
  | _ => false

/-- Events the segment loop (including its stage calls) can emit. -/
def loopEvent : Event → Bool
  | .logProcessing _ _ => true
  | .logGeneratedPrompt => true
  | .logSkipPrompt => true
  | .logSkipTask => true
  | .logSkipPoll => true
  | .logUrlFound => true
  | .downloadCall _ => true
  | .writeFile _ => true
  | .logSaveSuccess _ => true
  | .logDownloadError => true
  | e => preFetchEvent e

/-! ## Concrete witness data -/

/-- A configuration with the given script and segment count; the opaque
strings are arbitrary. -/
def sampleConfig (script : List Char) (n : Nat) : Config :=
  ⟨"freepik-key", "deepseek-key", script, n, "cinematic", "out", "square_1_1"⟩

/-- A poll oracle that succeeds immediately. -/
def okPoll : Nat → PollOutcome :=
  fun _ => .ok (some "DONE") [JValue.str "http://img/ok".toList]

/-- A segment oracle on which every stage succeeds. -/
def okSegOracle : SegmentOracle :=
  ⟨.ok "a prompt".toList, .ok (some "task-1".toList), okPoll, .ok false⟩

/-- A segment oracle that reaches the fetch stage and then raises an
`OSError` from the file write. -/
def raisingSegOracle : SegmentOracle :=
  ⟨.ok "a prompt".toList, .ok (some "task-1".toList), okPoll, .ok true⟩

/-- A segment oracle whose prompt synthesis fails. -/
def skipSegOracle : SegmentOracle :=
  ⟨.fail, .ok (some "task-1".toList), okPoll, .ok false⟩

/-! ## Theorems -/

theorem ceilDiv_le_iff {a b c : Nat} (hb : 0 < b) :
    ceilDiv a b ≤ c ↔ a ≤ b * c := by
  unfold ceilDiv
  rw [Nat.div_le_iff_le_mul_add_pred hb]
  omega

theorem lt_ceilDiv_iff {a b c : Nat} (hb : 0 < b) :
    c < ceilDiv a b ↔ b * c < a := by
  have h := ceilDiv_le_iff (a := a) (b := b) (c := c) hb
  omega

theorem le_mul_ceilDiv {a b : Nat} (hb : 0 < b) : a ≤ b * ceilDiv a b :=
  (ceilDiv_le_iff hb).mp (Nat.le_refl _)

theorem ceilDiv_pos {a b : Nat} (ha : 0 < a) (hb : 0 < b) : 0 < ceilDiv a b := by
  have h := lt_ceilDiv_iff (a := a) (b := b) (c := 0) hb
  omega

theorem filterMap_range_eq_chunksN (p : Nat) (hp : 0 < p) :
    ∀ (n : Nat) (words : List Word),
    ((List.range n).filterMap fun i =>
      let segment_words := (words.drop (i * p)).take p
      if segment_words.isEmpty then none else some segment_words) =
    chunksN n p words := by
  intro n
  induction n with
  | zero => intro words; simp [chunksN]
  | succ m ih =>
    intro words
    rw [List.range_succ_eq_map]
    by_cases hnil : words.isEmpty
    · rw [List.isEmpty_iff] at hnil
      subst hnil
      have hall : ∀ i ∈ (0 :: (List.range m).map Nat.succ),
          (fun i =>
            let segment_words := (([] : List Word).drop (i * p)).take p
            if segment_words.isEmpty then none else some segment_words) i = none := by
        intro i _
        simp
      rw [List.filterMap_eq_nil_iff.mpr hall]
      simp [chunksN]
    · have hlen : 0 < words.length := by
        rcases words with _ | ⟨w, ws⟩
        · simp at hnil
        · simp
      have htake : ¬ ((words.drop (0 * p)).take p).isEmpty := by
        rw [List.isEmpty_iff]
        simp only [Nat.zero_mul, List.drop_zero]
        intro hcontra
        have := congrArg List.length hcontra
        simp only [List.length_take, List.length_nil] at this
        omega
      have hshift : ∀ i : Nat, words.drop ((i + 1) * p) = (words.drop p).drop (i * p) := by
        intro i
        rw [List.drop_drop]
        congr 1
        ring
      rw [List.filterMap_cons]
      simp only [Nat.zero_mul, List.drop_zero] at htake ⊢
      rw [if_neg htake]
      have hrest :
          ((List.range m).map Nat.succ).filterMap (fun i =>
            let segment_words := (words.drop (i * p)).take p
            if segment_words.isEmpty then none else some segment_words) =
          chunksN m p (words.drop p) := by
        rw [List.filterMap_map, ← ih (words.drop p)]
        apply List.filterMap_congr
        intro i _
        simp only [Function.comp_apply, Nat.succ_eq_add_one, hshift]
      rw [hrest]
      simp [chunksN, hnil]

theorem segmentWindows_eq_chunksN (words : List Word) (n : Nat)
    (hw : ¬ words.isEmpty) (hn : 0 < n) :
    segmentWindows words n = chunksN n (ceilDiv words.length n) words := by
  have hlen : 0 < words.length := by
    rcases words with _ | ⟨w, ws⟩
    · simp at hw
    · simp
  unfold segmentWindows
  rw [if_neg hw]
  exact filterMap_range_eq_chunksN _ (ceilDiv_pos hlen hn) n words

theorem chunksN_flatten (p : Nat) :
    ∀ (fuel : Nat) (l : List Word), l.length ≤ fuel * p →
    (chunksN fuel p l).flatten = l := by
  intro fuel
  induction fuel with
  | zero =>
    intro l hl
    simp only [Nat.zero_mul, Nat.le_zero, List.length_eq_zero] at hl
    subst hl
    rfl
  | succ f ih =>
    intro l hl
    by_cases hnil : l.isEmpty
    · rw [List.isEmpty_iff] at hnil
      subst hnil
      simp [chunksN]
    · have hexp : (f + 1) * p = f * p + p := Nat.succ_mul f p
      simp only [chunksN, if_neg hnil, List.flatten_cons]
      rw [ih (l.drop p) (by simp only [List.length_drop]; omega)]
      exact List.take_append_drop p l

theorem chunksN_mem_length (p : Nat) :
    ∀ (fuel : Nat) (l : List Word), ∀ s ∈ chunksN fuel p l, s.length ≤ p := by
  intro fuel
  induction fuel with
  | zero => intro l s hs; simp [chunksN] at hs
  | succ f ih =>
    intro l s hs
    by_cases hnil : l.isEmpty
    · simp [chunksN, hnil] at hs
    · simp only [chunksN, if_neg hnil, List.mem_cons] at hs
      rcases hs with hs | hs
      · subst hs
        simp only [List.length_take]
        omega
      · exact ih (l.drop p) s hs

theorem chunksN_length (p : Nat) (hp : 0 < p) :
    ∀ (fuel : Nat) (l : List Word), l.length ≤ fuel * p →
    (chunksN fuel p l).length = ceilDiv l.length p := by
  intro fuel
  induction fuel with
  | zero =>
    intro l hl
    simp only [Nat.zero_mul, Nat.le_zero, List.length_eq_zero] at hl
    subst hl
    simp only [chunksN, List.length_nil]
    have h0 : ceilDiv 0 p = 0 := by
      unfold ceilDiv
      exact Nat.div_eq_of_lt (by omega)
    omega
  | succ f ih =>
    intro l hl
    by_cases hnil : l.isEmpty
    · rw [List.isEmpty_iff] at hnil
      subst hnil
      simp only [chunksN, List.isEmpty_nil, if_true, List.length_nil]
      have h0 : ceilDiv 0 p = 0 := by
        unfold ceilDiv
        exact Nat.div_eq_of_lt (by omega)
      omega
    · have hlen : 0 < l.length := by
        rcases l with _ | ⟨x, xs⟩
        · simp at hnil
        · simp
      have hexp : (f + 1) * p = f * p + p := Nat.succ_mul f p
      simp only [chunksN, if_neg hnil, List.length_cons]
      rw [ih (l.drop p) (by simp only [List.length_drop]; omega)]
      simp only [List.length_drop]
      unfold ceilDiv
      by_cases hcase : l.length ≤ p
      · have h1 : l.length - p = 0 := by omega
        rw [h1]
        have h2 : (0 + p - 1) / p = 0 := Nat.div_eq_of_lt (by omega)
        rw [h2]
        have h3 : l.length + p - 1 = (l.length - 1) + p := by omega
        rw [h3, Nat.add_div_right _ hp]
        have h4 : (l.length - 1) / p = 0 := Nat.div_eq_of_lt (by omega)
        omega
      · have h1 : l.length - p + p - 1 = (l.length - 1 - p) + p := by omega
        have h2 : l.length + p - 1 = (l.length - 1) + p := by omega
        rw [h1, h2, Nat.add_div_right _ hp, Nat.add_div_right _ hp]
        have h3 : l.length - 1 = (l.length - 1 - p) + p := by omega
        rw [h3, Nat.add_div_right _ hp, Nat.add_sub_cancel]

/-- Claim C1: For every text of `W ≥ 1` whitespace-delimited words and every
requested count `n ≥ 1`, `segment_script` returns exactly
`⌈W / ⌈W/n⌉⌉` segments, every kept word window has at most `⌈W/n⌉` words,
and the concatenation of the windows, in order, is exactly the original
word sequence. -/
theorem segment_script_spec (script : List Char) (n : Nat)
    (hn : 1 ≤ n) (hW : 1 ≤ (splitWords script).length) :
    (segment_script script n).length =
      ceilDiv (splitWords script).length
        (ceilDiv (splitWords script).length n) ∧
    (∀ s ∈ segmentWindows (splitWords script) n,
      s.length ≤ ceilDiv (splitWords script).length n) ∧
    (segmentWindows (splitWords script) n).flatten = splitWords script := by
  set words := splitWords script with hwords
  have hnil : ¬ words.isEmpty := by
    rw [List.isEmpty_iff]
    intro hcontra
    rw [hcontra] at hW
    simp at hW
  have hp : 0 < ceilDiv words.length n := ceilDiv_pos (by omega) hn
  have hcover : words.length ≤ n * ceilDiv words.length n := le_mul_ceilDiv hn
  have heq := segmentWindows_eq_chunksN words n hnil hn
  refine ⟨?_, ?_, ?_⟩
  · unfold segment_script
    rw [List.length_map, ← hwords, heq]
    exact chunksN_length _ hp n words hcover
  · intro s hs
    rw [heq] at hs
    exact chunksN_mem_length _ n words s hs
  · rw [heq]
    exact chunksN_flatten _ n words hcover

/-- Witness for `segment_script_spec`: a five-word script split into two
requested segments gives `⌈5/⌈5/2⌉⌉ = 2` segments of at most three words
whose windows concatenate back to the word list. -/
theorem segment_script_spec_witness :
    1 ≤ 2 ∧ 1 ≤ (splitWords "a bc d e f".toList).length ∧
    ((segment_script "a bc d e f".toList 2).length =
      ceilDiv (splitWords "a bc d e f".toList).length
        (ceilDiv (splitWords "a bc d e f".toList).length 2) ∧
    (∀ s ∈ segmentWindows (splitWords "a bc d e f".toList) 2,
      s.length ≤ ceilDiv (splitWords "a bc d e f".toList).length 2) ∧
    (segmentWindows (splitWords "a bc d e f".toList) 2).flatten =
      splitWords "a bc d e f".toList) :=
  ⟨by decide, by decide,
    segment_script_spec "a bc d e f".toList 2 (by decide) (by decide)⟩

theorem findSome?_qual_eq_none (g : List JValue)
    (h : g.any isQualifying = false) : g.findSome? qualifyingUrl = none := by
  induction g with
  | nil => rfl
  | cons a t ih =>
    simp only [List.any_cons, Bool.or_eq_false_iff] at h
    rw [List.findSome?_cons]
    have ha : qualifyingUrl a = none := by
      cases a with
      | str s =>
        have hpre : httpPrefix.isPrefixOf s = false := h.1
        simp [qualifyingUrl, hpre]
      | nonstr => rfl
    rw [ha]
    exact ih h.2

theorem firstUrl_eq_none (g : List JValue)
    (h : g.any isQualifying = false) : firstUrl g = none := by
  unfold firstUrl
  split
  · rfl
  · exact findSome?_qual_eq_none g h

theorem firstUrl_isSome (g : List JValue)
    (h : g.any isQualifying = true) : (firstUrl g).isSome = true := by
  induction g with
  | nil => simp at h
  | cons a t ih =>
    simp only [List.any_cons, Bool.or_eq_true] at h
    unfold firstUrl
    rw [if_neg (by simp)]
    rw [List.findSome?_cons]
    cases a with
    | str s =>
      rcases h with h | h
      · have hs : httpPrefix.isPrefixOf s = true := h
        simp [qualifyingUrl, hs]
      · cases hq : qualifyingUrl (JValue.str s) with
        | some u => simp
        | none =>
          have := ih h
          unfold firstUrl at this
          rcases t with _ | ⟨b, t'⟩
          · simp at h
          · simpa using this
    | nonstr =>
      rcases h with h | h
      · simp [isQualifying] at h
      · have := ih h
        unfold firstUrl at this
        rcases t with _ | ⟨b, t'⟩
        · simp at h
        · simpa [qualifyingUrl] using this

theorem pollAttempt_snd (o : PollOutcome) :
    (pollAttempt o).2 = firstUrlOfOutcome o := by
  cases o with
  | err => rfl
  | ok status g =>
    unfold pollAttempt firstUrlOfOutcome
    cases h : firstUrl g <;> simp [h]

theorem pollAttempt_calls (o : PollOutcome) :
    pollCalls (pollAttempt o).1 = 1 := by
  cases o with
  | err => rfl
  | ok status g =>
    unfold pollAttempt
    cases h : firstUrl g <;> simp [h] <;> rfl

theorem pollAttempt_fail (o : PollOutcome) (h : hasQualifying o = false) :
    (pollAttempt o).2 = none ∧
    (pollAttempt o).1.filter isPollStep =
      [Event.sleepPoll POLL_INTERVAL, Event.remoteCall CallKind.freepikPoll] := by
  cases o with
  | err => exact ⟨rfl, rfl⟩
  | ok status g =>
    have h' : g.any isQualifying = false := h
    have hfu : firstUrl g = none := firstUrl_eq_none g h'
    simp only [pollAttempt, hfu]
    exact ⟨trivial, rfl⟩

/-! ### Poll loop lemmas -/

theorem pollLoop_all_fail (responses : Nat → PollOutcome) :
    ∀ (r k : Nat), (∀ j, j < r → hasQualifying (responses (k + j)) = false) →
    (pollLoop responses k r).2 = none ∧
    (pollLoop responses k r).1.filter isPollStep =
      (List.replicate r
        [Event.sleepPoll POLL_INTERVAL, Event.remoteCall CallKind.freepikPoll]).flatten ∧
    pollCalls (pollLoop responses k r).1 = r := by
  intro r
  induction r with
  | zero => intro k h; exact ⟨rfl, rfl, rfl⟩
  | succ r ih =>
    intro k h
    have h0 : hasQualifying (responses k) = false := by
      have := h 0 (by omega)
      simpa using this
    obtain ⟨hsnd, hfil⟩ := pollAttempt_fail (responses k) h0
    have hshift : ∀ j, j < r → hasQualifying (responses (k + 1 + j)) = false := by
      intro j hj
      have := h (j + 1) (by omega)
      have harr : k + (j + 1) = k + 1 + j := by omega
      rwa [harr] at this
    obtain ⟨ih1, ih2, ih3⟩ := ih (k + 1) hshift
    simp only [pollLoop, hsnd]
    refine ⟨ih1, ?_, ?_⟩
    · rw [List.filter_append, hfil, ih2, List.replicate_succ, List.flatten_cons]
    · rw [pollCalls, List.countP_append, ← pollCalls, ← pollCalls,
        pollAttempt_calls, ih3]
      omega

theorem pollLoop_succeeds (responses : Nat → PollOutcome) :
    ∀ (j r k : Nat), j < r →
    (∀ i, i < j → hasQualifying (responses (k + i)) = false) →
    hasQualifying (responses (k + j)) = true →
    (pollLoop responses k r).2 = firstUrlOfOutcome (responses (k + j)) ∧
    pollCalls (pollLoop responses k r).1 = j + 1 := by
  intro j
  induction j with
  | zero =>
    intro r k hr hbefore hq
    rcases r with _ | r
    · omega
    have hq' : hasQualifying (responses k) = true := by simpa using hq
    cases hou : responses k with
    | err => rw [hou] at hq'; simp [hasQualifying] at hq'
    | ok status g =>
      rw [hou] at hq'
      have hany : g.any isQualifying = true := hq'
      have hsome := firstUrl_isSome g hany
      obtain ⟨url, hurl⟩ := Option.isSome_iff_exists.mp hsome
      have hstep : (pollAttempt (responses k)).2 = some url := by
        rw [pollAttempt_snd, hou]
        simpa [firstUrlOfOutcome] using hurl
      simp only [pollLoop, hstep]
      constructor
      · rw [pollAttempt_snd] at hstep
        simp only [Nat.add_zero]
        rw [hstep]
      · rw [pollAttempt_calls]
  | succ j ih =>
    intro r k hr hbefore hq
    rcases r with _ | r
    · omega
    have h0 : hasQualifying (responses k) = false := by
      have := hbefore 0 (by omega)
      simpa using this
    obtain ⟨hsnd, _⟩ := pollAttempt_fail (responses k) h0
    have hbefore' : ∀ i, i < j → hasQualifying (responses (k + 1 + i)) = false := by
      intro i hi
      have := hbefore (i + 1) (by omega)
      have harr : k + (i + 1) = k + 1 + i := by omega
      rwa [harr] at this
    have hq' : hasQualifying (responses (k + 1 + j)) = true := by
      have harr : k + (j + 1) = k + 1 + j := by omega
      rwa [harr] at hq
    obtain ⟨ih1, ih2⟩ := ih r (k + 1) (by omega) hbefore' hq'
    simp only [pollLoop, hsnd]
    constructor
    · have harr : k + 1 + j = k + (j + 1) := by omega
      rw [ih1, harr]
    · rw [pollCalls, List.countP_append, ← pollCalls, ← pollCalls,
        pollAttempt_calls, ih2]
      omega

theorem pollLoop_calls_le (responses : Nat → PollOutcome) :
    ∀ (r k : Nat), pollCalls (pollLoop responses k r).1 ≤ r := by
  intro r
  induction r with
  | zero => intro k; exact Nat.le_refl _
  | succ r ih =>
    intro k
    cases hstep : (pollAttempt (responses k)).2 with
    | some url =>
      simp only [pollLoop, hstep]
      rw [pollAttempt_calls]
      omega
    | none =>
      simp only [pollLoop, hstep]
      rw [pollCalls, List.countP_append, ← pollCalls, ← pollCalls,
        pollAttempt_calls]
      have := ih (k + 1)
      omega

theorem pollLoop_none_exhausts (responses : Nat → PollOutcome) :
    ∀ (r k : Nat), (pollLoop responses k r).2 = none →
    pollCalls (pollLoop responses k r).1 = r := by
  intro r
  induction r with
  | zero => intro k _; rfl
  | succ r ih =>
    intro k hnone
    cases hstep : (pollAttempt (responses k)).2 with
    | some url =>
      simp only [pollLoop, hstep] at hnone
      exact absurd hnone (by simp)
    | none =>
      simp only [pollLoop, hstep] at hnone ⊢
      rw [pollCalls, List.countP_append, ← pollCalls, ← pollCalls,
        pollAttempt_calls, ih (k + 1) hnone]
      omega

theorem pollLoop_calls_pos (responses : Nat → PollOutcome) :
    ∀ (r k : Nat), 1 ≤ r → 1 ≤ pollCalls (pollLoop responses k r).1 := by
  intro r k hr
  rcases r with _ | r
  · omega
  cases hstep : (pollAttempt (responses k)).2 with
  | some url =>
    simp only [pollLoop, hstep]
    rw [pollAttempt_calls]
  | none =>
    simp only [pollLoop, hstep]
    rw [pollCalls, List.countP_append, ← pollCalls, ← pollCalls,
      pollAttempt_calls]
    omega

theorem pollLoop_calls_ge (responses : Nat → PollOutcome) :
    ∀ (m r k : Nat), m + 2 ≤ r →
    (∀ i, i ≤ m → hasQualifying (responses (k + i)) = false) →
    m + 2 ≤ pollCalls (pollLoop responses k r).1 := by
  intro m
  induction m with
  | zero =>
    intro r k hr h
    rcases r with _ | r
    · omega
    have h0 : hasQualifying (responses k) = false := by
      have := h 0 (by omega)
      simpa using this
    obtain ⟨hsnd, _⟩ := pollAttempt_fail (responses k) h0
    simp only [pollLoop, hsnd]
    rw [pollCalls, List.countP_append, ← pollCalls, ← pollCalls,
      pollAttempt_calls]
    have := pollLoop_calls_pos responses r (k + 1) (by omega)
    omega
  | succ m ih =>
    intro r k hr h
    rcases r with _ | r
    · omega
    have h0 : hasQualifying (responses k) = false := by
      have := h 0 (by omega)
      simpa using this
    obtain ⟨hsnd, _⟩ := pollAttempt_fail (responses k) h0
    simp only [pollLoop, hsnd]
    rw [pollCalls, List.countP_append, ← pollCalls, ← pollCalls,
      pollAttempt_calls]
    have hshift : ∀ i, i ≤ m → hasQualifying (responses (k + 1 + i)) = false := by
      intro i hi
      have := h (i + 1) (by omega)
      have harr : k + (i + 1) = k + 1 + i := by omega
      rwa [harr] at this
    have := ih r (k + 1) (by omega) hshift
    omega

theorem pollLoop_mem_logPollError (responses : Nat → PollOutcome) :
    ∀ (m r k : Nat), m < r →
    (∀ i, i < m → hasQualifying (responses (k + i)) = false) →
    responses (k + m) = PollOutcome.err →
    Event.logPollError ∈ (pollLoop responses k r).1 := by
  intro m
  induction m with
  | zero =>
    intro r k hr hbefore herr
    rcases r with _ | r
    · omega
    have herr' : responses k = PollOutcome.err := by simpa using herr
    have hsnd : (pollAttempt (responses k)).2 = none := by
      rw [herr']; rfl
    simp only [pollLoop, hsnd]
    rw [herr']
    simp [pollAttempt]
  | succ m ih =>
    intro r k hr hbefore herr
    rcases r with _ | r
    · omega
    have h0 : hasQualifying (responses k) = false := by
      have := hbefore 0 (by omega)
      simpa using this
    obtain ⟨hsnd, _⟩ := pollAttempt_fail (responses k) h0
    simp only [pollLoop, hsnd]
    rw [List.mem_append]
    right
    apply ih r (k + 1) (by omega)
    · intro i hi
      have := hbefore (i + 1) (by omega)
      have harr : k + (i + 1) = k + 1 + i := by omega
      rwa [harr] at this
    · have harr : k + (m + 1) = k + 1 + m := by omega
      rwa [harr] at herr

/-! ### The poller claims -/

/-- Claim C2: When no poll response ever contains a qualifying asset string,
the poller makes exactly `MAX_ATTEMPTS = 20` status requests, sleeps one
`POLL_INTERVAL = 5` interval immediately before each of them, and returns
null. -/
theorem poll_exhausts_budget (responses : Nat → PollOutcome)
    (h : ∀ k, k < MAX_ATTEMPTS → hasQualifying (responses k) = false) :
    MAX_ATTEMPTS = 20 ∧ POLL_INTERVAL = 5 ∧
    (poll_for_image_url responses).2 = none ∧
    pollCalls (poll_for_image_url responses).1 = MAX_ATTEMPTS ∧
    (poll_for_image_url responses).1.filter isPollStep =
      (List.replicate MAX_ATTEMPTS
        [Event.sleepPoll POLL_INTERVAL, Event.remoteCall CallKind.freepikPoll]).flatten := by
  have h' : ∀ j, j < MAX_ATTEMPTS → hasQualifying (responses (0 + j)) = false := by
    intro j hj
    have := h j hj
    simpa using this
  obtain ⟨h1, h2, h3⟩ := pollLoop_all_fail responses MAX_ATTEMPTS 0 h'
  refine ⟨rfl, rfl, h1, ?_, ?_⟩
  · unfold poll_for_image_url
    simp only [pollCalls, List.countP_cons]
    rw [← pollCalls, h3]
    rfl
  · unfold poll_for_image_url
    rw [List.filter_cons]
    simp only [isPollStep]
    rw [if_neg (by simp)]
    exact h2

/-- Witness for `poll_exhausts_budget`: with every response a transport
error, the poller issues all twenty requests, each preceded by its sleep,
and returns null. -/
theorem poll_exhausts_budget_witness :
    (∀ k, k < MAX_ATTEMPTS →
      hasQualifying ((fun _ => PollOutcome.err) k) = false) ∧
    ((poll_for_image_url (fun _ => PollOutcome.err)).2 = none ∧
      pollCalls (poll_for_image_url (fun _ => PollOutcome.err)).1 = MAX_ATTEMPTS) :=
  ⟨by decide, by
    have h := poll_exhausts_budget (fun _ => PollOutcome.err) (by decide)
    exact ⟨h.2.2.1, h.2.2.2.1⟩⟩

/-- Claim C3: On the first poll attempt whose response carries a qualifying
asset string, the poller returns the first such string of that response
and issues no status request after that attempt: `j + 1` requests in
total when the first success is the zero-indexed attempt `j`. -/
theorem poll_returns_first_url (responses : Nat → PollOutcome) (j : Nat)
    (hj : j < MAX_ATTEMPTS)
    (hbefore : ∀ k, k < j → hasQualifying (responses k) = false)
    (hq : hasQualifying (responses j) = true) :
    (poll_for_image_url responses).2 = firstUrlOfOutcome (responses j) ∧
    (firstUrlOfOutcome (responses j)).isSome = true ∧
    pollCalls (poll_for_image_url responses).1 = j + 1 := by
  have hbefore' : ∀ i, i < j → hasQualifying (responses (0 + i)) = false := by
    intro i hi
    have := hbefore i hi
    simpa using this
  have hq' : hasQualifying (responses (0 + j)) = true := by simpa using hq
  obtain ⟨h1, h2⟩ := pollLoop_succeeds responses j MAX_ATTEMPTS 0 hj hbefore' hq'
  have hzero : (0 : Nat) + j = j := by omega
  rw [hzero] at h1
  refine ⟨h1, ?_, ?_⟩
  · cases hou : responses j with
    | err => rw [hou] at hq; simp [hasQualifying] at hq
    | ok status g =>
      rw [hou] at hq
      have hany : g.any isQualifying = true := hq
      simpa [firstUrlOfOutcome] using firstUrl_isSome g hany
  · unfold poll_for_image_url
    simp only [pollCalls, List.countP_cons]
    rw [← pollCalls, h2]
    rfl

/-- Witness for `poll_returns_first_url`: success arrives on the third
attempt (index 2), so the poller answers that attempt's first http string
after exactly three requests. -/
theorem poll_returns_first_url_witness :
    (2 < MAX_ATTEMPTS ∧
      (∀ k, k < 2 → hasQualifying (pollWitnessResponses k) = false) ∧
      hasQualifying (pollWitnessResponses 2) = true) ∧
    ((poll_for_image_url pollWitnessResponses).2 =
        firstUrlOfOutcome (pollWitnessResponses 2) ∧
      (firstUrlOfOutcome (pollWitnessResponses 2)).isSome = true ∧
      pollCalls (poll_for_image_url pollWitnessResponses).1 = 2 + 1) :=
  ⟨⟨by decide, by decide, by decide⟩,
    poll_returns_first_url pollWitnessResponses 2 (by decide) (by decide) (by decide)⟩

/-- Claim C4: A transport or HTTP failure on a reached poll attempt `k`
(zero-indexed, with `k + 1` still inside the budget) does not end the
loop: the failure is logged, the attempt still consumes budget (the total
never exceeds `MAX_ATTEMPTS`), attempt `k + 1` is still issued, and a null
return happens only with the budget fully spent. -/
theorem poll_error_not_fatal (responses : Nat → PollOutcome) (k : Nat)
    (herr : responses k = PollOutcome.err)
    (hbefore : ∀ j, j < k → hasQualifying (responses j) = false)
    (hk : k + 1 < MAX_ATTEMPTS) :
    Event.logPollError ∈ (poll_for_image_url responses).1 ∧
    k + 2 ≤ pollCalls (poll_for_image_url responses).1 ∧
    pollCalls (poll_for_image_url responses).1 ≤ MAX_ATTEMPTS ∧
    ((poll_for_image_url responses).2 = none →
      pollCalls (poll_for_image_url responses).1 = MAX_ATTEMPTS) := by
  have hple : ∀ i, i ≤ k → hasQualifying (responses (0 + i)) = false := by
    intro i hi
    rcases Nat.lt_or_ge i k with hlt | hge
    · have := hbefore i hlt
      simpa using this
    · have hik : i = k := by omega
      subst hik
      simp only [Nat.zero_add, herr]
      rfl
  have hcalls : pollCalls (pollLoop responses 0 MAX_ATTEMPTS).1 =
      pollCalls (poll_for_image_url responses).1 := by
    unfold poll_for_image_url
    simp only [pollCalls, List.countP_cons]
    rfl
  refine ⟨?_, ?_, ?_, ?_⟩
  · unfold poll_for_image_url
    rw [List.mem_cons]
    right
    apply pollLoop_mem_logPollError responses k MAX_ATTEMPTS 0 (by omega)
    · intro i hi
      have := hbefore i hi
      simpa using this
    · simpa using herr
  · rw [← hcalls]
    exact pollLoop_calls_ge responses k MAX_ATTEMPTS 0 (by omega) hple
  · rw [← hcalls]
    exact pollLoop_calls_le responses MAX_ATTEMPTS 0
  · intro hnone
    rw [← hcalls]
    apply pollLoop_none_exhausts
    exact hnone

/-- Witness for `poll_error_not_fatal`: a transport error on the very
first attempt of an otherwise never-qualifying job still leads to all
twenty requests. -/
theorem poll_error_not_fatal_witness :
    ((fun _ => PollOutcome.err) 0 = PollOutcome.err ∧ 0 + 1 < MAX_ATTEMPTS) ∧
    (Event.logPollError ∈ (poll_for_image_url (fun _ => PollOutcome.err)).1 ∧
      0 + 2 ≤ pollCalls (poll_for_image_url (fun _ => PollOutcome.err)).1) :=
  ⟨⟨rfl, by decide⟩, by
    have h := poll_error_not_fatal (fun _ => PollOutcome.err) 0 rfl
      (by intro j hj; omega) (by decide)
    exact ⟨h.1, h.2.1⟩⟩

/-! ### Asset Fetcher claims -/

/-- Claim C7, counterexample: The claim says the Asset Fetcher's caller
can distinguish success from failure by the returned indication.  It
cannot: at the concrete destination `"1.png"`, the value returned after
a completed download-and-write equals the value returned after a
transport/HTTP failure (the source function has no `return` statement, so
both paths return `None`). -/
theorem download_return_counterexample :
    (download_and_save_image (FetchOutcome.ok false) "1.png").2 =
      (download_and_save_image FetchOutcome.httpErr "1.png").2 := rfl

/-- Claim C7, amended: The Asset Fetcher signals success and failure only
on the log stream: a completed download writes the file and logs the
success line and no download error, a transport/HTTP failure logs the
download error and writes nothing; the returned value is `None` (`ok ()`)
in both cases, so the caller cannot distinguish them by return value. -/
theorem download_logs_distinguish (name : String) :
    (download_and_save_image (FetchOutcome.ok false) name).2 = .ok () ∧
    (download_and_save_image FetchOutcome.httpErr name).2 = .ok () ∧
    Event.writeFile name ∈ (download_and_save_image (FetchOutcome.ok false) name).1 ∧
    Event.logSaveSuccess name ∈ (download_and_save_image (FetchOutcome.ok false) name).1 ∧
    Event.logDownloadError ∉ (download_and_save_image (FetchOutcome.ok false) name).1 ∧
    Event.logDownloadError ∈ (download_and_save_image FetchOutcome.httpErr name).1 ∧
    Event.writeFile name ∉ (download_and_save_image FetchOutcome.httpErr name).1 ∧
    Event.logSaveSuccess name ∉ (download_and_save_image FetchOutcome.httpErr name).1 := by
  refine ⟨rfl, rfl, ?_, ?_, ?_, ?_, ?_, ?_⟩ <;>
    simp [download_and_save_image]

/-! ### Wrapper claim -/

/-- Claim C8: Every run's event stream ends with the completion signal,
and a run whose pipeline raised an uncaught error carries the critical
failure report: the wrapper's `except` reports, its `finally` always
enqueues completion. -/
theorem run_always_completes (cfg : Config) (o : Nat → SegmentOracle) :
    (run_pipeline_thread cfg o).getLast? = some Event.pipelineComplete ∧
    (∀ e, (main_pipeline cfg o).2 = .error e →
      Event.criticalError ∈ run_pipeline_thread cfg o) := by
  constructor
  · simp only [run_pipeline_thread]
    cases hres : (main_pipeline cfg o).2 with
    | ok u =>
      simp only [List.getLast?_concat]
    | error e =>
      have hsplit : (main_pipeline cfg o).1 ++ [Event.criticalError, Event.pipelineComplete] =
          ((main_pipeline cfg o).1 ++ [Event.criticalError]) ++ [Event.pipelineComplete] := by
        simp
      simp only [hsplit, List.getLast?_concat]
  · intro e hres
    simp only [run_pipeline_thread]
    rw [hres]
    simp

/-- Witness for `run_always_completes`: a one-word script whose single
segment reaches the fetch stage and raises an `OSError` from the file
write; the wrapper still reports the critical failure and completes. -/
theorem run_always_completes_witness :
    (main_pipeline (sampleConfig "hello".toList 1) (fun _ => raisingSegOracle)).2 =
        .error OSErr.osError ∧
    (run_pipeline_thread (sampleConfig "hello".toList 1)
        (fun _ => raisingSegOracle)).getLast? = some Event.pipelineComplete ∧
    Event.criticalError ∈ run_pipeline_thread (sampleConfig "hello".toList 1)
        (fun _ => raisingSegOracle) :=
  ⟨by rfl,
    (run_always_completes (sampleConfig "hello".toList 1) (fun _ => raisingSegOracle)).1,
    (run_always_completes (sampleConfig "hello".toList 1) (fun _ => raisingSegOracle)).2
      OSErr.osError (by rfl)⟩

/-! ### Output directory claim -/

theorem main_pipeline_take3 (cfg : Config) (o : Nat → SegmentOracle) :
    (main_pipeline cfg o).1.take 3 =
      [Event.logStart, Event.mkdirOutput, Event.logSavedAs] := by
  unfold main_pipeline
  by_cases hseg : (segment_script cfg.full_script cfg.num_images).isEmpty
  · simp only [hseg, if_true]
    rfl
  · simp only [hseg, if_false]
    cases hres : (runSegments o (segment_script cfg.full_script cfg.num_images).length
        (segment_script cfg.full_script cfg.num_images) 0 1).2 with
    | error e => rfl
    | ok counter => rfl

theorem splitWordsAux_blank :
    ∀ s : List Char, (∀ c ∈ s, isWS c = true) → splitWordsAux s [] = [] := by
  intro s
  induction s with
  | nil => intro _; rfl
  | cons c cs ih =>
    intro h
    have hc : isWS c = true := h c (by simp)
    simp only [splitWordsAux, hc, if_true, List.isEmpty_nil]
    exact ih fun d hd => h d (by simp [hd])

theorem splitWords_blank (s : List Char) (h : isBlank s = true) :
    splitWords s = [] := by
  unfold splitWords
  apply splitWordsAux_blank
  intro c hc
  exact List.all_eq_true.mp h c hc

theorem segment_script_blank (s : List Char) (n : Nat) (h : isBlank s = true) :
    segment_script s n = [] := by
  unfold segment_script segmentWindows
  rw [splitWords_blank s h]
  rfl

theorem main_pipeline_blank (cfg : Config) (o : Nat → SegmentOracle)
    (h : isBlank cfg.full_script = true) :
    (main_pipeline cfg o).1 =
      [Event.logStart, Event.mkdirOutput, Event.logSavedAs, Event.logEmptyScript] ∧
    (main_pipeline cfg o).2 = .ok () := by
  unfold main_pipeline
  have hseg : (segment_script cfg.full_script cfg.num_images).isEmpty = true := by
    rw [segment_script_blank _ _ h]
    rfl
  simp only [hseg, if_true]
  refine ⟨?_, ?_⟩ <;> first | rfl | trivial

/-- Claim C10: The orchestrator's first filesystem effect is creating the
output directory (`os.makedirs(..., exist_ok=True)`), which happens
right after the start log and before segmentation in every run; in
particular a blank-script run, though it aborts before the loop, still
performs the directory creation. -/
theorem mkdir_before_segmentation (cfg : Config) (o : Nat → SegmentOracle) :
    (main_pipeline cfg o).1.take 3 =
      [Event.logStart, Event.mkdirOutput, Event.logSavedAs] ∧
    Event.mkdirOutput ∈ (main_pipeline cfg o).1 ∧
    (isBlank cfg.full_script = true →
      (main_pipeline cfg o).1 =
        [Event.logStart, Event.mkdirOutput, Event.logSavedAs, Event.logEmptyScript]) := by
  refine ⟨main_pipeline_take3 cfg o, ?_, fun h => (main_pipeline_blank cfg o h).1⟩
  apply List.mem_of_mem_take (n := 3)
  rw [main_pipeline_take3 cfg o]
  simp

/-- Witness for `mkdir_before_segmentation`: a whitespace-only script
still produces the directory-creating abort trace. -/
theorem mkdir_before_segmentation_witness :
    (main_pipeline (sampleConfig " \n \t".toList 3) (fun _ => okSegOracle)).1.take 3 =
      [Event.logStart, Event.mkdirOutput, Event.logSavedAs] ∧
    (isBlank (sampleConfig " \n \t".toList 3).full_script = true ∧
      (main_pipeline (sampleConfig " \n \t".toList 3) (fun _ => okSegOracle)).1 =
        [Event.logStart, Event.mkdirOutput, Event.logSavedAs, Event.logEmptyScript]) :=
  ⟨(mkdir_before_segmentation (sampleConfig " \n \t".toList 3) (fun _ => okSegOracle)).1,
    by decide,
    (mkdir_before_segmentation (sampleConfig " \n \t".toList 3)
      (fun _ => okSegOracle)).2.2 (by decide)⟩

/-! ### Unfolding the segment loop, one branch at a time -/

theorem runSegments_nil (o : Nat → SegmentOracle) (total i c : Nat) :
    runSegments o total [] i c = ([], .ok c) := rfl

theorem runSegments_skipPrompt (o : Nat → SegmentOracle)
    (total : Nat) (seg : List Char) (rest : List (List Char)) (i c : Nat)
    (hP : truthy (generate_prompt_from_chunk (o i).prompt).2 = false) :
    runSegments o total (seg :: rest) i c =
      ([Event.logProcessing (i + 1) total] ++
        (generate_prompt_from_chunk (o i).prompt).1 ++ [Event.logSkipPrompt] ++
        (runSegments o total rest (i + 1) c).1,
       (runSegments o total rest (i + 1) c).2) := by
  simp only [runSegments, hP, Bool.not_false, if_true]

theorem runSegments_skipTask (o : Nat → SegmentOracle)
    (total : Nat) (seg : List Char) (rest : List (List Char)) (i c : Nat)
    (hP : truthy (generate_prompt_from_chunk (o i).prompt).2 = true)
    (hS : truthy (start_image_generation (o i).submit).2 = false) :
    runSegments o total (seg :: rest) i c =
      ([Event.logProcessing (i + 1) total] ++
        (generate_prompt_from_chunk (o i).prompt).1 ++ [Event.logGeneratedPrompt] ++
        (start_image_generation (o i).submit).1 ++ [Event.logSkipTask] ++
        (runSegments o total rest (i + 1) c).1,
       (runSegments o total rest (i + 1) c).2) := by
  simp only [runSegments, hP, hS, Bool.not_true, Bool.not_false,
    Bool.false_eq_true, if_false, if_true]

theorem runSegments_skipPoll (o : Nat → SegmentOracle)
    (total : Nat) (seg : List Char) (rest : List (List Char)) (i c : Nat)
    (hP : truthy (generate_prompt_from_chunk (o i).prompt).2 = true)
    (hS : truthy (start_image_generation (o i).submit).2 = true)
    (hPo : truthy (poll_for_image_url (o i).poll).2 = false) :
    runSegments o total (seg :: rest) i c =
      ([Event.logProcessing (i + 1) total] ++
        (generate_prompt_from_chunk (o i).prompt).1 ++ [Event.logGeneratedPrompt] ++
        (start_image_generation (o i).submit).1 ++
        (poll_for_image_url (o i).poll).1 ++ [Event.logSkipPoll] ++
        (runSegments o total rest (i + 1) c).1,
       (runSegments o total rest (i + 1) c).2) := by
  simp only [runSegments, hP, hS, hPo, Bool.not_true, Bool.not_false,
    Bool.false_eq_true, if_false, if_true]

theorem runSegments_fetchOk (o : Nat → SegmentOracle)
    (total : Nat) (seg : List Char) (rest : List (List Char)) (i c : Nat)
    (hP : truthy (generate_prompt_from_chunk (o i).prompt).2 = true)
    (hS : truthy (start_image_generation (o i).submit).2 = true)
    (hPo : truthy (poll_for_image_url (o i).poll).2 = true)
    (hD : (download_and_save_image (o i).fetch (toString c ++ ".png")).2 =
      Except.ok ()) :
    runSegments o total (seg :: rest) i c =
      ([Event.logProcessing (i + 1) total] ++
        (generate_prompt_from_chunk (o i).prompt).1 ++ [Event.logGeneratedPrompt] ++
        (start_image_generation (o i).submit).1 ++
        (poll_for_image_url (o i).poll).1 ++ [Event.logUrlFound] ++
        (download_and_save_image (o i).fetch (toString c ++ ".png")).1 ++
        (runSegments o total rest (i + 1) (c + 1)).1,
       (runSegments o total rest (i + 1) (c + 1)).2) := by
  simp only [runSegments, hP, hS, hPo, hD, Bool.not_true,
    Bool.false_eq_true, if_false]

theorem runSegments_fetchErr (o : Nat → SegmentOracle)
    (total : Nat) (seg : List Char) (rest : List (List Char)) (i c : Nat)
    (err : OSErr)
    (hP : truthy (generate_prompt_from_chunk (o i).prompt).2 = true)
    (hS : truthy (start_image_generation (o i).submit).2 = true)
    (hPo : truthy (poll_for_image_url (o i).poll).2 = true)
    (hD : (download_and_save_image (o i).fetch (toString c ++ ".png")).2 =
      Except.error err) :
    runSegments o total (seg :: rest) i c =
      ([Event.logProcessing (i + 1) total] ++
        (generate_prompt_from_chunk (o i).prompt).1 ++ [Event.logGeneratedPrompt] ++
        (start_image_generation (o i).submit).1 ++
        (poll_for_image_url (o i).poll).1 ++ [Event.logUrlFound] ++
        (download_and_save_image (o i).fetch (toString c ++ ".png")).1,
       Except.error err) := by
  simp only [runSegments, hP, hS, hPo, hD, Bool.not_true,
    Bool.false_eq_true, if_false]

/-! ### What each stage can put in the trace -/

theorem mem_prompt_events (r : PromptResult) (e : Event)
    (h : e ∈ (generate_prompt_from_chunk r).1) : preFetchEvent e = true := by
  cases r with
  | fail =>
    simp only [generate_prompt_from_chunk, List.mem_cons,
      List.not_mem_nil, or_false] at h
    rcases h with rfl | rfl | rfl <;> rfl
  | ok content =>
    simp only [generate_prompt_from_chunk, List.mem_cons,
      List.not_mem_nil, or_false] at h
    rcases h with rfl | rfl <;> rfl

theorem mem_submit_events (r : SubmitResult) (e : Event)
    (h : e ∈ (start_image_generation r).1) : preFetchEvent e = true := by
  cases r with
  | fail =>
    simp only [start_image_generation, List.mem_cons,
      List.not_mem_nil, or_false] at h
    rcases h with rfl | rfl | rfl <;> rfl
  | ok tid =>
    by_cases ht : truthy tid <;>
      simp only [start_image_generation, ht, Bool.false_eq_true, if_false,
        if_true, List.mem_cons, List.not_mem_nil, or_false] at h <;>
      (rcases h with rfl | rfl | rfl <;> rfl)

theorem mem_pollAttempt_events (po : PollOutcome) (e : Event)
    (h : e ∈ (pollAttempt po).1) : preFetchEvent e = true := by
  cases po with
  | err =>
    simp only [pollAttempt, List.mem_cons, List.not_mem_nil, or_false] at h
    rcases h with rfl | rfl | rfl <;> rfl
  | ok status g =>
    cases hf : firstUrl g <;>
      simp only [pollAttempt, hf, List.mem_cons, List.not_mem_nil, or_false] at h <;>
      (rcases h with rfl | rfl | rfl <;> rfl)

theorem mem_pollLoop_events (responses : Nat → PollOutcome) :
    ∀ (r k : Nat) (e : Event), e ∈ (pollLoop responses k r).1 →
    preFetchEvent e = true := by
  intro r
  induction r with
  | zero =>
    intro k e h
    simp only [pollLoop, List.mem_cons, List.not_mem_nil, or_false] at h
    subst h
    rfl
  | succ r ih =>
    intro k e h
    cases hstep : (pollAttempt (responses k)).2 with
    | some url =>
      simp only [pollLoop, hstep] at h
      exact mem_pollAttempt_events _ e h
    | none =>
      simp only [pollLoop, hstep, List.mem_append] at h
      rcases h with h | h
      · exact mem_pollAttempt_events _ e h
      · exact ih (k + 1) e h

theorem mem_poll_events (responses : Nat → PollOutcome) (e : Event)
    (h : e ∈ (poll_for_image_url responses).1) : preFetchEvent e = true := by
  simp only [poll_for_image_url, List.mem_cons] at h
  rcases h with rfl | h
  · rfl
  · exact mem_pollLoop_events responses MAX_ATTEMPTS 0 e h

theorem mem_download_events (fo : FetchOutcome) (name : String) (e : Event)
    (h : e ∈ (download_and_save_image fo name).1) :
    e = Event.downloadCall name ∨ e = Event.writeFile name ∨
    e = Event.logSaveSuccess name ∨ e = Event.logDownloadError := by
  cases fo with
  | httpErr =>
    simp only [download_and_save_image, List.mem_cons,
      List.not_mem_nil, or_false] at h
    rcases h with rfl | rfl
    · exact Or.inl rfl
    · exact Or.inr (Or.inr (Or.inr rfl))
  | ok b =>
    cases b <;>
      simp only [download_and_save_image, Bool.false_eq_true, if_false, if_true,
        List.mem_cons, List.not_mem_nil, or_false] at h
    · rcases h with rfl | rfl | rfl
      · exact Or.inl rfl
      · exact Or.inr (Or.inl rfl)
      · exact Or.inr (Or.inr (Or.inl rfl))
    · subst h
      exact Or.inl rfl

theorem preFetch_facts (e : Event) (h : preFetchEvent e = true) :
    downloadNameOf e = none ∧ isProcessing e = false ∧
    e ≠ Event.logEmptyScript ∧ e ≠ Event.logComplete := by
  cases e <;> simp_all [preFetchEvent, downloadNameOf, isProcessing]

theorem preFetch_loopEvent (e : Event) (h : preFetchEvent e = true) :
    loopEvent e = true := by
  cases e <;> first | rfl | exact h

theorem bool_eq_false {b : Bool} (h : ¬ b = true) : b = false := by
  cases b
  · rfl
  · exact absurd rfl h

theorem prompt_fetchNames (r : PromptResult) :
    fetchNames (generate_prompt_from_chunk r).1 = [] := by
  cases r <;> rfl

theorem submit_fetchNames (r : SubmitResult) :
    fetchNames (start_image_generation r).1 = [] := by
  cases r with
  | fail => rfl
  | ok tid =>
    by_cases ht : truthy tid
    · simp only [start_image_generation, ht, if_true]
      rfl
    · simp only [start_image_generation, bool_eq_false ht,
        Bool.false_eq_true, if_false]
      rfl

theorem poll_fetchNames (responses : Nat → PollOutcome) :
    fetchNames (poll_for_image_url responses).1 = [] :=
  List.filterMap_eq_nil_iff.mpr fun e he =>
    (preFetch_facts e (mem_poll_events responses e he)).1

theorem download_ok_result (fo : FetchOutcome) (name : String)
    (h : fo ≠ FetchOutcome.ok true) :
    (download_and_save_image fo name).2 = Except.ok () := by
  cases fo with
  | httpErr => rfl
  | ok b =>
    cases b
    · rfl
    · exact absurd rfl h

theorem download_fetchNames (fo : FetchOutcome) (name : String) :
    fetchNames (download_and_save_image fo name).1 = [name] := by
  cases fo with
  | httpErr => rfl
  | ok b => cases b <;> rfl

theorem prompt_countP_processing (r : PromptResult) :
    (generate_prompt_from_chunk r).1.countP isProcessing = 0 := by
  cases r <;> rfl

theorem submit_countP_processing (r : SubmitResult) :
    (start_image_generation r).1.countP isProcessing = 0 := by
  cases r with
  | fail => rfl
  | ok tid =>
    by_cases ht : truthy tid
    · simp only [start_image_generation, ht, if_true]
      rfl
    · simp only [start_image_generation, bool_eq_false ht,
        Bool.false_eq_true, if_false]
      rfl

theorem poll_countP_processing (responses : Nat → PollOutcome) :
    (poll_for_image_url responses).1.countP isProcessing = 0 :=
  List.countP_eq_zero.mpr fun e he => by
    simp [(preFetch_facts e (mem_poll_events responses e he)).2.1]

theorem download_countP_processing (fo : FetchOutcome) (name : String) :
    (download_and_save_image fo name).1.countP isProcessing = 0 := by
  cases fo with
  | httpErr => rfl
  | ok b => cases b <;> rfl

theorem runSegments_mem (o : Nat → SegmentOracle) (total : Nat) :
    ∀ (segs : List (List Char)) (i c : Nat) (e : Event),
    e ∈ (runSegments o total segs i c).1 → loopEvent e = true := by
  intro segs
  induction segs with
  | nil => intro i c e h; simp [runSegments_nil] at h
  | cons seg rest ih =>
    intro i c e h
    by_cases hP : truthy (generate_prompt_from_chunk (o i).prompt).2 = true
    case neg =>
      rw [runSegments_skipPrompt o total seg rest i c (bool_eq_false hP)] at h
      simp only [List.mem_append, List.mem_cons, List.not_mem_nil, or_false] at h
      rcases h with ((rfl | h) | rfl) | h
      · rfl
      · exact preFetch_loopEvent e (mem_prompt_events _ e h)
      · rfl
      · exact ih (i + 1) c e h
    case pos =>
    by_cases hS : truthy (start_image_generation (o i).submit).2 = true
    case neg =>
      rw [runSegments_skipTask o total seg rest i c hP (bool_eq_false hS)] at h
      simp only [List.mem_append, List.mem_cons, List.not_mem_nil, or_false] at h
      rcases h with ((((rfl | h) | rfl) | h) | rfl) | h
      · rfl
      · exact preFetch_loopEvent e (mem_prompt_events _ e h)
      · rfl
      · exact preFetch_loopEvent e (mem_submit_events _ e h)
      · rfl
      · exact ih (i + 1) c e h
    case pos =>
    by_cases hPo : truthy (poll_for_image_url (o i).poll).2 = true
    case neg =>
      rw [runSegments_skipPoll o total seg rest i c hP hS (bool_eq_false hPo)] at h
      simp only [List.mem_append, List.mem_cons, List.not_mem_nil, or_false] at h
      rcases h with (((((rfl | h) | rfl) | h) | h) | rfl) | h
      · rfl
      · exact preFetch_loopEvent e (mem_prompt_events _ e h)
      · rfl
      · exact preFetch_loopEvent e (mem_submit_events _ e h)
      · exact preFetch_loopEvent e (mem_poll_events _ e h)
      · rfl
      · exact ih (i + 1) c e h
    case pos =>
    cases hD : (download_and_save_image ((o i).fetch) (toString c ++ ".png")).2 with
    | error err =>
      rw [runSegments_fetchErr o total seg rest i c err hP hS hPo hD] at h
      simp only [List.mem_append, List.mem_cons, List.not_mem_nil, or_false] at h
      rcases h with (((((rfl | h) | rfl) | h) | h) | rfl) | h
      · rfl
      · exact preFetch_loopEvent e (mem_prompt_events _ e h)
      · rfl
      · exact preFetch_loopEvent e (mem_submit_events _ e h)
      · exact preFetch_loopEvent e (mem_poll_events _ e h)
      · rfl
      · rcases mem_download_events _ _ e h with rfl | rfl | rfl | rfl <;> rfl
    | ok u =>
      rw [runSegments_fetchOk o total seg rest i c hP hS hPo (by rw [hD])] at h
      simp only [List.mem_append, List.mem_cons, List.not_mem_nil, or_false] at h
      rcases h with ((((((rfl | h) | rfl) | h) | h) | rfl) | h) | h
      · rfl
      · exact preFetch_loopEvent e (mem_prompt_events _ e h)
      · rfl
      · exact preFetch_loopEvent e (mem_submit_events _ e h)
      · exact preFetch_loopEvent e (mem_poll_events _ e h)
      · rfl
      · rcases mem_download_events _ _ e h with rfl | rfl | rfl | rfl <;> rfl
      · exact ih (i + 1) (c + 1) e h

theorem runSegments_no_emptyScript (o : Nat → SegmentOracle) (total : Nat)
    (segs : List (List Char)) (i c : Nat) :
    Event.logEmptyScript ∉ (runSegments o total segs i c).1 := by
  intro h
  have := runSegments_mem o total segs i c Event.logEmptyScript h
  simp [loopEvent, preFetchEvent] at this

theorem runSegments_no_complete (o : Nat → SegmentOracle) (total : Nat)
    (segs : List (List Char)) (i c : Nat) :
    Event.logComplete ∉ (runSegments o total segs i c).1 := by
  intro h
  have := runSegments_mem o total segs i c Event.logComplete h
  simp [loopEvent, preFetchEvent] at this

/-- Claim C6: A blank (empty or whitespace-only) script makes the
orchestrator abort before the per-segment loop: its whole trace is the
three preamble events plus exactly one configuration-error log line, with
zero remote calls and zero segments processed.  Conversely a run whose
segmentation is non-empty never emits that configuration-error line. -/
theorem empty_script_aborts (cfg : Config) (o : Nat → SegmentOracle) :
    (isBlank cfg.full_script = true →
      (main_pipeline cfg o).1 =
        [Event.logStart, Event.mkdirOutput, Event.logSavedAs, Event.logEmptyScript] ∧
      (main_pipeline cfg o).1.countP isRemoteCall = 0 ∧
      (main_pipeline cfg o).1.countP (fun e => e == Event.logEmptyScript) = 1 ∧
      (main_pipeline cfg o).1.countP isProcessing = 0) ∧
    ((segment_script cfg.full_script cfg.num_images).isEmpty = false →
      Event.logEmptyScript ∉ (main_pipeline cfg o).1) := by
  constructor
  · intro h
    obtain ⟨htrace, _⟩ := main_pipeline_blank cfg o h
    rw [htrace]
    refine ⟨rfl, rfl, rfl, rfl⟩
  · intro hseg h
    unfold main_pipeline at h
    simp only [hseg, Bool.false_eq_true, if_false] at h
    set segs := segment_script cfg.full_script cfg.num_images with hsegs
    cases hres : (runSegments o segs.length segs 0 1).2 with
    | error e =>
      rw [hres] at h
      simp only [List.mem_append, List.mem_cons, List.not_mem_nil, or_false] at h
      rcases h with (h | h) | h
      · rcases h with h | h | h <;> exact Event.noConfusion h
      · exact absurd h (by simp)
      · exact runSegments_no_emptyScript o segs.length segs 0 1 h
    | ok counter =>
      rw [hres] at h
      simp only [List.mem_append, List.mem_cons, List.not_mem_nil, or_false] at h
      rcases h with ((h | h) | h) | h
      · rcases h with h | h | h <;> exact Event.noConfusion h
      · exact absurd h (by simp)
      · exact runSegments_no_emptyScript o segs.length segs 0 1 h
      · rcases h with h | h <;> exact Event.noConfusion h

/-- Witness for `empty_script_aborts`: a whitespace-only script gives the
four-event abort trace; a one-word script never logs the configuration
error. -/
theorem empty_script_aborts_witness :
    (isBlank (sampleConfig "  ".toList 2).full_script = true ∧
      (main_pipeline (sampleConfig "  ".toList 2) (fun _ => okSegOracle)).1 =
        [Event.logStart, Event.mkdirOutput, Event.logSavedAs, Event.logEmptyScript] ∧
      (main_pipeline (sampleConfig "  ".toList 2)
        (fun _ => okSegOracle)).1.countP isRemoteCall = 0) ∧
    ((segment_script (sampleConfig "hi".toList 1).full_script
        (sampleConfig "hi".toList 1).num_images).isEmpty = false ∧
      Event.logEmptyScript ∉
        (main_pipeline (sampleConfig "hi".toList 1) (fun _ => okSegOracle)).1) :=
  ⟨⟨by decide,
    ((empty_script_aborts (sampleConfig "  ".toList 2)
      (fun _ => okSegOracle)).1 (by decide)).1,
    ((empty_script_aborts (sampleConfig "  ".toList 2)
      (fun _ => okSegOracle)).1 (by decide)).2.1⟩,
   ⟨by decide,
    (empty_script_aborts (sampleConfig "hi".toList 1)
      (fun _ => okSegOracle)).2 (by decide)⟩⟩

/-- Extracting download destinations distributes over trace concatenation. -/
theorem fetchNames_append (l₁ l₂ : List Event) :
    fetchNames (l₁ ++ l₂) = fetchNames l₁ ++ fetchNames l₂ := by
  unfold fetchNames
  exact List.filterMap_append l₁ l₂ downloadNameOf

theorem runSegments_names (o : Nat → SegmentOracle) (total : Nat)
    (hf : ∀ i, (o i).fetch ≠ FetchOutcome.ok true) :
    ∀ (segs : List (List Char)) (i c : Nat), ∃ m,
    fetchNames (runSegments o total segs i c).1 =
      (List.range m).map (fun j => toString (c + j) ++ ".png") ∧
    (runSegments o total segs i c).2 = Except.ok (c + m) := by
  intro segs
  induction segs with
  | nil =>
    intro i c
    exact ⟨0, by simp [runSegments_nil, fetchNames], by simp [runSegments_nil]⟩
  | cons seg rest ih =>
    intro i c
    by_cases hP : truthy (generate_prompt_from_chunk (o i).prompt).2 = true
    case neg =>
      obtain ⟨m, h1, h2⟩ := ih (i + 1) c
      refine ⟨m, ?_, ?_⟩
      · rw [runSegments_skipPrompt o total seg rest i c (bool_eq_false hP)]
        simp only [fetchNames_append, prompt_fetchNames]
        simpa [fetchNames] using h1
      · rw [runSegments_skipPrompt o total seg rest i c (bool_eq_false hP)]
        exact h2
    case pos =>
    by_cases hS : truthy (start_image_generation (o i).submit).2 = true
    case neg =>
      obtain ⟨m, h1, h2⟩ := ih (i + 1) c
      refine ⟨m, ?_, ?_⟩
      · rw [runSegments_skipTask o total seg rest i c hP (bool_eq_false hS)]
        simp only [fetchNames_append, prompt_fetchNames, submit_fetchNames]
        simpa [fetchNames] using h1
      · rw [runSegments_skipTask o total seg rest i c hP (bool_eq_false hS)]
        exact h2
    case pos =>
    by_cases hPo : truthy (poll_for_image_url (o i).poll).2 = true
    case neg =>
      obtain ⟨m, h1, h2⟩ := ih (i + 1) c
      refine ⟨m, ?_, ?_⟩
      · rw [runSegments_skipPoll o total seg rest i c hP hS (bool_eq_false hPo)]
        simp only [fetchNames_append, prompt_fetchNames, submit_fetchNames,
          poll_fetchNames]
        simpa [fetchNames] using h1
      · rw [runSegments_skipPoll o total seg rest i c hP hS (bool_eq_false hPo)]
        exact h2
    case pos =>
    have hD : (download_and_save_image ((o i).fetch) (toString c ++ ".png")).2 =
        Except.ok () := download_ok_result _ _ (hf i)
    obtain ⟨m, h1, h2⟩ := ih (i + 1) (c + 1)
    refine ⟨m + 1, ?_, ?_⟩
    · rw [runSegments_fetchOk o total seg rest i c hP hS hPo hD]
      simp only [fetchNames_append, prompt_fetchNames, submit_fetchNames,
        poll_fetchNames, download_fetchNames]
      have hfun : ((fun j => toString (c + j) ++ ".png") ∘ Nat.succ) =
          (fun j => toString (c + 1 + j) ++ ".png") := by
        funext j
        simp only [Function.comp_apply, Nat.succ_eq_add_one]
        congr 2
        omega
      have hmap : (List.range (m + 1)).map (fun j => toString (c + j) ++ ".png") =
          (toString c ++ ".png") ::
            (List.range m).map (fun j => toString (c + 1 + j) ++ ".png") := by
        rw [List.range_succ_eq_map, List.map_cons, List.map_map, hfun, Nat.add_zero]
      rw [hmap]
      simp only [fetchNames] at h1 ⊢
      rw [h1]
      simp [downloadNameOf]
    · rw [runSegments_fetchOk o total seg rest i c hP hS hPo hD, h2]
      congr 1
      omega

/-- Claim C5: In a run that reaches the loop and never raises from a file
write, the `j`-th segment that reaches the Asset Fetcher is fetched to
file name `"j.png"` (counting from 1): skipped segments consume no name,
the counter advances after every completed fetch attempt whether or not
the download succeeded, and the final summary reports exactly the number
of fetch attempts. -/
theorem dense_output_filenames (cfg : Config) (o : Nat → SegmentOracle)
    (hseg : (segment_script cfg.full_script cfg.num_images).isEmpty = false)
    (hf : ∀ i, (o i).fetch ≠ FetchOutcome.ok true) :
    fetchNames (main_pipeline cfg o).1 =
      (List.range (fetchNames (main_pipeline cfg o).1).length).map
        (fun j => toString (j + 1) ++ ".png") ∧
    Event.logSummary (fetchNames (main_pipeline cfg o).1).length ∈
      (main_pipeline cfg o).1 ∧
    (main_pipeline cfg o).2 = Except.ok () := by
  obtain ⟨m, h1, h2⟩ := runSegments_names o
    (segment_script cfg.full_script cfg.num_images).length hf
    (segment_script cfg.full_script cfg.num_images) 0 1
  have h2' : (runSegments o (segment_script cfg.full_script cfg.num_images).length
      (segment_script cfg.full_script cfg.num_images) 0 1).2 = Except.ok (1 + m) := h2
  unfold main_pipeline
  simp only [hseg, Bool.false_eq_true, if_false, h2']
  have htr : fetchNames
      (([Event.logStart, Event.mkdirOutput, Event.logSavedAs] ++
        [Event.logSplit (segment_script cfg.full_script cfg.num_images).length] ++
        (runSegments o (segment_script cfg.full_script cfg.num_images).length
          (segment_script cfg.full_script cfg.num_images) 0 1).1 ++
        [Event.logComplete, Event.logSummary (1 + m - 1)])) =
      (List.range m).map (fun j => toString (1 + j) ++ ".png") := by
    simp only [fetchNames_append, h1]
    simp [fetchNames, downloadNameOf]
  have hfun : (fun j => toString (1 + j) ++ ".png") =
      (fun j => toString (j + 1) ++ ".png") := by
    funext j
    congr 2
    omega
  rw [htr, hfun]
  have hlen : ((List.range m).map (fun j => toString (j + 1) ++ ".png")).length = m := by
    simp
  rw [hlen]
  refine ⟨rfl, ?_, trivial⟩
  have hm : 1 + m - 1 = m := by omega
  simp [hm]

/-- Witness for `dense_output_filenames`: four words split into two
segments, the first segment's prompt synthesis fails, so the single
fetched segment gets file name `1.png` and the summary reports one
success. -/
theorem dense_output_filenames_witness :
    ((segment_script (sampleConfig "a b c d".toList 2).full_script
        (sampleConfig "a b c d".toList 2).num_images).isEmpty = false ∧
      (∀ i, ((fun i => if i = 0 then skipSegOracle else okSegOracle) i).fetch ≠
        FetchOutcome.ok true)) ∧
    (fetchNames (main_pipeline (sampleConfig "a b c d".toList 2)
        (fun i => if i = 0 then skipSegOracle else okSegOracle)).1 =
      (List.range (fetchNames (main_pipeline (sampleConfig "a b c d".toList 2)
        (fun i => if i = 0 then skipSegOracle else okSegOracle)).1).length).map
        (fun j => toString (j + 1) ++ ".png") ∧
      Event.logSummary (fetchNames (main_pipeline (sampleConfig "a b c d".toList 2)
        (fun i => if i = 0 then skipSegOracle else okSegOracle)).1).length ∈
        (main_pipeline (sampleConfig "a b c d".toList 2)
          (fun i => if i = 0 then skipSegOracle else okSegOracle)).1 ∧
      (main_pipeline (sampleConfig "a b c d".toList 2)
        (fun i => if i = 0 then skipSegOracle else okSegOracle)).2 = Except.ok ()) :=
  have hf : ∀ i, ((fun i => if i = 0 then skipSegOracle else okSegOracle) i).fetch ≠
      FetchOutcome.ok true := by
    intro i
    by_cases h : i = 0 <;> simp [h, skipSegOracle, okSegOracle, okPoll]
  ⟨⟨by decide, hf⟩,
    dense_output_filenames (sampleConfig "a b c d".toList 2)
      (fun i => if i = 0 then skipSegOracle else okSegOracle) (by decide) hf⟩

theorem countP_processing_segment_prefix (o : Nat → SegmentOracle) (i c : Nat) :
    (generate_prompt_from_chunk (o i).prompt).1.countP isProcessing = 0 ∧
    (start_image_generation (o i).submit).1.countP isProcessing = 0 ∧
    (poll_for_image_url (o i).poll).1.countP isProcessing = 0 ∧
    (download_and_save_image ((o i).fetch) (toString c ++ ".png")).1.countP
      isProcessing = 0 :=
  ⟨prompt_countP_processing _, submit_countP_processing _,
    poll_countP_processing _, download_countP_processing _ _⟩

theorem runSegments_raises (o : Nat → SegmentOracle) (total : Nat) :
    ∀ (segs : List (List Char)) (i0 c m : Nat), m < segs.length →
    (∀ j, j < m → ¬ segmentRaises (o (i0 + j))) →
    segmentRaises (o (i0 + m)) →
    (runSegments o total segs i0 c).2 = Except.error OSErr.osError ∧
    (runSegments o total segs i0 c).1.countP isProcessing = m + 1 := by
  intro segs
  induction segs with
  | nil => intro i0 c m hm _ _; simp at hm
  | cons seg rest ih =>
    intro i0 c m hm hbefore hr
    cases m with
    | zero =>
      have hr0 : segmentRaises (o i0) := by simpa using hr
      obtain ⟨hreach, hfetch⟩ := hr0
      have hP : truthy (generate_prompt_from_chunk (o i0).prompt).2 = true := by
        unfold reachesFetch at hreach
        simp only [Bool.and_eq_true] at hreach
        exact hreach.1.1
      have hS : truthy (start_image_generation (o i0).submit).2 = true := by
        unfold reachesFetch at hreach
        simp only [Bool.and_eq_true] at hreach
        exact hreach.1.2
      have hPo : truthy (poll_for_image_url (o i0).poll).2 = true := by
        unfold reachesFetch at hreach
        simp only [Bool.and_eq_true] at hreach
        exact hreach.2
      have hD : (download_and_save_image ((o i0).fetch) (toString c ++ ".png")).2 =
          Except.error OSErr.osError := by
        rw [hfetch]
        rfl
      rw [runSegments_fetchErr o total seg rest i0 c OSErr.osError hP hS hPo hD]
      refine ⟨rfl, ?_⟩
      obtain ⟨c1, c2, c3, c4⟩ := countP_processing_segment_prefix o i0 c
      simp only [List.countP_append, c1, c2, c3, c4]
      rfl
    | succ m =>
      have h0 : ¬ segmentRaises (o i0) := by
        have := hbefore 0 (by omega)
        simpa using this
      have hbefore' : ∀ j, j < m → ¬ segmentRaises (o (i0 + 1 + j)) := by
        intro j hj
        have := hbefore (j + 1) (by omega)
        have harr : i0 + (j + 1) = i0 + 1 + j := by omega
        rwa [harr] at this
      have hr' : segmentRaises (o (i0 + 1 + m)) := by
        have harr : i0 + (m + 1) = i0 + 1 + m := by omega
        rwa [harr] at hr
      have hm' : m < rest.length := by
        simp only [List.length_cons] at hm
        omega
      by_cases hP : truthy (generate_prompt_from_chunk (o i0).prompt).2 = true
      case neg =>
        obtain ⟨ihe, ihc⟩ := ih (i0 + 1) c m hm' hbefore' hr'
        rw [runSegments_skipPrompt o total seg rest i0 c (bool_eq_false hP)]
        refine ⟨ihe, ?_⟩
        simp only [List.countP_append, ihc, prompt_countP_processing]
        simp [List.countP_cons, isProcessing]
        omega
      case pos =>
      by_cases hS : truthy (start_image_generation (o i0).submit).2 = true
      case neg =>
        obtain ⟨ihe, ihc⟩ := ih (i0 + 1) c m hm' hbefore' hr'
        rw [runSegments_skipTask o total seg rest i0 c hP (bool_eq_false hS)]
        refine ⟨ihe, ?_⟩
        simp only [List.countP_append, ihc, prompt_countP_processing,
          submit_countP_processing]
        simp [List.countP_cons, isProcessing]
        omega
      case pos =>
      by_cases hPo : truthy (poll_for_image_url (o i0).poll).2 = true
      case neg =>
        obtain ⟨ihe, ihc⟩ := ih (i0 + 1) c m hm' hbefore' hr'
        rw [runSegments_skipPoll o total seg rest i0 c hP hS (bool_eq_false hPo)]
        refine ⟨ihe, ?_⟩
        simp only [List.countP_append, ihc, prompt_countP_processing,
          submit_countP_processing, poll_countP_processing]
        simp [List.countP_cons, isProcessing]
        omega
      case pos =>
      have hreach : reachesFetch (o i0) = true := by
        unfold reachesFetch
        rw [hP, hS, hPo]
        rfl
      have hfetch : (o i0).fetch ≠ FetchOutcome.ok true := by
        intro hcontra
        exact h0 ⟨hreach, hcontra⟩
      have hD : (download_and_save_image ((o i0).fetch) (toString c ++ ".png")).2 =
          Except.ok () := download_ok_result _ _ hfetch
      obtain ⟨ihe, ihc⟩ := ih (i0 + 1) (c + 1) m hm' hbefore' hr'
      rw [runSegments_fetchOk o total seg rest i0 c hP hS hPo hD]
      refine ⟨ihe, ?_⟩
      obtain ⟨c1, c2, c3, c4⟩ := countP_processing_segment_prefix o i0 c
      simp only [List.countP_append, c1, c2, c3, c4, ihc]
      simp [List.countP_cons, isProcessing]
      omega

/-- Claim C9: The Asset Fetcher catches only transport errors: an OS-level
error from opening or writing the destination file propagates out of
`download_and_save_image`, aborts the whole segment loop at the raising
segment (no later segment is even started, no completion summary is
logged) and is caught only by the top-level wrapper, which reports the
critical failure. -/
theorem write_error_aborts_run (cfg : Config) (o : Nat → SegmentOracle)
    (m : Nat)
    (hm : m < (segment_script cfg.full_script cfg.num_images).length)
    (hbefore : ∀ j, j < m → ¬ segmentRaises (o j))
    (hr : segmentRaises (o m)) :
    (∀ name, (download_and_save_image (FetchOutcome.ok true) name).2 =
      Except.error OSErr.osError) ∧
    (main_pipeline cfg o).2 = Except.error OSErr.osError ∧
    (main_pipeline cfg o).1.countP isProcessing = m + 1 ∧
    Event.logComplete ∉ (main_pipeline cfg o).1 ∧
    Event.criticalError ∈ run_pipeline_thread cfg o := by
  set segs := segment_script cfg.full_script cfg.num_images with hsegs
  have hseg : segs.isEmpty = false := by
    rcases hnil : segs with _ | ⟨s, ss⟩
    · rw [hnil] at hm
      simp at hm
    · rfl
  have hbefore0 : ∀ j, j < m → ¬ segmentRaises (o (0 + j)) := by
    intro j hj
    have := hbefore j hj
    simpa using this
  have hr0 : segmentRaises (o (0 + m)) := by simpa using hr
  obtain ⟨he, hc⟩ := runSegments_raises o segs.length segs 0 1 m hm hbefore0 hr0
  have hmain1 : (main_pipeline cfg o).1 =
      [Event.logStart, Event.mkdirOutput, Event.logSavedAs] ++
        [Event.logSplit segs.length] ++ (runSegments o segs.length segs 0 1).1 := by
    unfold main_pipeline
    simp only [← hsegs, hseg, Bool.false_eq_true, if_false, he]
  have hmain2 : (main_pipeline cfg o).2 = Except.error OSErr.osError := by
    unfold main_pipeline
    simp only [← hsegs, hseg, Bool.false_eq_true, if_false, he]
  refine ⟨fun name => rfl, hmain2, ?_, ?_, ?_⟩
  · rw [hmain1]
    simp only [List.countP_append, hc]
    simp [List.countP_cons, isProcessing]
  · rw [hmain1]
    intro h
    simp only [List.mem_append, List.mem_cons, List.not_mem_nil, or_false] at h
    rcases h with (h | h) | h
    · rcases h with h | h | h <;> exact Event.noConfusion h
    · exact Event.noConfusion h
    · exact runSegments_no_complete o segs.length segs 0 1 h
  · simp only [run_pipeline_thread, hmain2]
    simp

/-- Witness for `write_error_aborts_run`: two one-word segments, the
first succeeds end to end, the second raises from its file write; the
run errors after processing exactly two segments, logs no completion,
and the wrapper reports the critical failure. -/
theorem write_error_aborts_run_witness :
    (1 < (segment_script (sampleConfig "a b".toList 2).full_script
        (sampleConfig "a b".toList 2).num_images).length ∧
      (∀ j, j < 1 → ¬ segmentRaises
        ((fun i => if i = 0 then okSegOracle else raisingSegOracle) j)) ∧
      segmentRaises ((fun i => if i = 0 then okSegOracle else raisingSegOracle) 1)) ∧
    ((main_pipeline (sampleConfig "a b".toList 2)
        (fun i => if i = 0 then okSegOracle else raisingSegOracle)).2 =
        Except.error OSErr.osError ∧
      (main_pipeline (sampleConfig "a b".toList 2)
        (fun i => if i = 0 then okSegOracle else raisingSegOracle)).1.countP
          isProcessing = 1 + 1 ∧
      Event.criticalError ∈ run_pipeline_thread (sampleConfig "a b".toList 2)
        (fun i => if i = 0 then okSegOracle else raisingSegOracle)) :=
  have hb : ∀ j, j < 1 → ¬ segmentRaises
      ((fun i => if i = 0 then okSegOracle else raisingSegOracle) j) := by
    intro j hj
    have hj0 : j = 0 := by omega
    subst hj0
    simp only [if_pos rfl]
    decide
  have hr : segmentRaises ((fun i => if i = 0 then okSegOracle else raisingSegOracle) 1) := by
    simp only [if_neg (by omega : (1 : Nat) ≠ 0)]
    decide
  have h := write_error_aborts_run (sampleConfig "a b".toList 2)
    (fun i => if i = 0 then okSegOracle else raisingSegOracle) 1 (by decide) hb hr
  ⟨⟨by decide, hb, hr⟩, ⟨h.2.1, h.2.2.1, h.2.2.2.2⟩⟩

end BulkGen
